import Mathlib

/-!
Shallow embedding of the netviz-backend frontend realtime-graph core:
  * `src/frontend/src/utils/dataAdapter.ts` (isEmpty, filterEmptyFields, adaptBackendEdge)
  * `src/frontend/src/hooks/useRealtimeGraph.ts` (handleGraphUpdate reducer)
  * `src/frontend/src/components/EnhancedSettingsModal.tsx` (WebSocketManager)
JavaScript objects are modelled as entry lists, machine numbers as `Int`,
optional / possibly-undefined fields as `Option`.
-/

/-- A JSON-like runtime value, as manipulated by the metadata adapter.
`null` stands for both JS `null` and `undefined` (both hit the same
`value === null || value === undefined` branch of `isEmpty`). An object is
its `Object.entries` list in insertion order. -/
inductive JValue where
  | null : JValue
  | str (s : String) : JValue
  | num (n : Int) : JValue
  | boolean (b : Bool) : JValue
  | arr (elems : List JValue) : JValue
  | obj (fields : List (String × JValue)) : JValue

/-- `isEmpty` from `dataAdapter.ts` lines 5-19: a value is empty iff it is
null/undefined, the empty string, a whitespace-only string, an empty array,
or an object with zero own keys (non-empty arrays fall through the
`Object.keys` test since their keys are their indices). Numbers and booleans
are never empty. -/
def isEmpty : JValue → Bool
  | .null => true
  | .str s => s == "" || s.trim == ""
  | .num _ => false
  | .boolean _ => false
  | .arr elems => elems.isEmpty
  | .obj fields => fields.isEmpty

/-- `filterEmptyFields` from `dataAdapter.ts` lines 22-40: drop entries whose
value `isEmpty`; recurse into non-null non-array object values, keeping the
key only when the recursively filtered object still has at least one key. -/
def filterEmptyFields : List (String × JValue) → List (String × JValue)
  | [] => []
  | (k, v) :: rest =>
    if isEmpty v then filterEmptyFields rest
    else
      match v with
      | .obj fields =>
        let filteredNested := filterEmptyFields fields
        if filteredNested.isEmpty then filterEmptyFields rest
        else (k, .obj filteredNested) :: filterEmptyFields rest
      | _ => (k, v) :: filterEmptyFields rest
termination_by l => sizeOf l
decreasing_by
  all_goals simp_all
  all_goals omega

mutual

/-- Specification-side predicate: a value is empty after recursive stripping.
For an object this means every field value is itself deeply empty (in
particular an object with zero keys is deeply empty). For every other shape
it coincides with `isEmpty`. -/
def deepEmpty : JValue → Bool
  | .null => true
  | .str s => s == "" || s.trim == ""
  | .num _ => false
  | .boolean _ => false
  | .arr elems => elems.isEmpty
  | .obj fields => deepEmptyFields fields

/-- All entry values of an object are deeply empty. -/
def deepEmptyFields : List (String × JValue) → Bool
  | [] => true
  | (_, v) :: rest => deepEmpty v && deepEmptyFields rest

end

/-- The transformation `filterEmptyFields` applies to a retained value:
object values are recursively filtered, everything else passes unchanged. -/
def deepFilter : JValue → JValue
  | .obj fields => .obj (filterEmptyFields fields)
  | v => v

/-- Position `{x, y}` of a node (numeric coordinates). -/
structure Position where
  x : Int
  y : Int

/-- `BackendNetworkNode` from `services/api.ts`. -/
structure BackendNetworkNode where
  id : String
  name : String
  type : String
  ip_address : Option String
  status : String
  layer : String
  position : Position
  metadata : List (String × JValue)
  last_updated : String

/-- `BackendNetworkEdge` from `services/api.ts`. `utilization` is a number
(0-100); `bandwidth` is optional. -/
structure BackendNetworkEdge where
  id : String
  source : String
  target : String
  type : String
  bandwidth : Option String
  utilization : Int
  status : String
  metadata : List (String × JValue)
  last_updated : String

/-- Frontend `NetworkEdge` shape as produced by `adaptBackendEdge`
(`types/network.ts`): `bandwidth` and `utilization` are optional. -/
structure NetworkEdge where
  id : String
  source : String
  target : String
  type : String
  bandwidth : Option String
  utilization : Option Int
  status : String

/-- JS truthiness coercion `s || undefined` for an optional string field:
`undefined` and the empty string are falsy and become `undefined`. -/
def jsOrUndefinedStr : Option String → Option String
  | none => none
  | some s => if s == "" then none else some s

/-- JS truthiness coercion `n || undefined` for a number: `0` is falsy and
becomes `undefined`; every other value passes through. -/
def jsOrUndefinedNum (n : Int) : Option Int :=
  if n == 0 then none else some n

/-- `adaptBackendEdge` from `dataAdapter.ts` lines 74-84: field-for-field
copy, with `bandwidth := backendEdge.bandwidth || undefined` and
`utilization := backendEdge.utilization || undefined`. -/
def adaptBackendEdge (backendEdge : BackendNetworkEdge) : NetworkEdge :=
  { id := backendEdge.id
    source := backendEdge.source
    target := backendEdge.target
    type := backendEdge.type
    bandwidth := jsOrUndefinedStr backendEdge.bandwidth
    utilization := jsOrUndefinedNum backendEdge.utilization
    status := backendEdge.status }

/-- The `type` discriminant of a server→client message (`GraphUpdate.type`
union in `services/api.ts`). -/
inductive MsgType where
  | graph_update | graph_state | connection_established | ping | pong
deriving DecidableEq

/-- `update_type` of a delta envelope. -/
inductive UpdateType where
  | created | updated | deleted
deriving DecidableEq

/-- `entity_type` of a delta envelope. -/
inductive EntityType where
  | node | edge
deriving DecidableEq

/-- `entity_data`: a node or an edge payload (TS union
`BackendNetworkNode | BackendNetworkEdge`). -/
inductive EntityData where
  | node (n : BackendNetworkNode)
  | edge (e : BackendNetworkEdge)

/-- The `GraphUpdate` message envelope from `services/api.ts`: optional
fields are `Option`; `timestamp` is always present. -/
structure GraphUpdate where
  type : MsgType
  update_type : Option UpdateType
  entity_type : Option EntityType
  entity_data : Option EntityData
  nodes : Option (List BackendNetworkNode)
  edges : Option (List BackendNetworkEdge)
  source : Option String
  timestamp : String

/-- `RealtimeGraphState` from `useRealtimeGraph.ts` lines 4-11. -/
structure RealtimeGraphState where
  nodes : List BackendNetworkNode
  edges : List BackendNetworkEdge
  isConnected : Bool
  isConnecting : Bool
  lastUpdated : Option String
  connectionError : Option String

/-- Initial hook state (`useState` initialiser, lines 21-28). -/
def initialRealtimeGraphState : RealtimeGraphState :=
  { nodes := []
    edges := []
    isConnected := false
    isConnecting := false
    lastUpdated := none
    connectionError := none }

/-- The state reducer inside `handleGraphUpdate` (`useRealtimeGraph.ts`
lines 35-120): the function `prevState ↦ next state` passed to `setState`,
for one incoming message. The `ping` branch additionally sends a `pong`
(modelled separately); its state result is `prevState`. -/
def handleGraphUpdate (update : GraphUpdate) (prevState : RealtimeGraphState) :
    RealtimeGraphState :=
  match update.type with
  | .connection_established =>
    { prevState with isConnected := true, isConnecting := false, connectionError := none }
  | .graph_state =>
    { prevState with
        nodes := update.nodes.getD []
        edges := update.edges.getD []
        lastUpdated := some update.timestamp }
  | .graph_update =>
    match update.update_type, update.entity_type, update.entity_data with
    | some update_type, some entity_type, some entity_data =>
      let newState :=
        match entity_type, entity_data with
        | EntityType.node, EntityData.node nodeData =>
          match update_type with
          | .created => { prevState with nodes := prevState.nodes ++ [nodeData] }
          | .updated =>
            { prevState with
                nodes := prevState.nodes.map fun (node : BackendNetworkNode) =>
                  if node.id == nodeData.id then nodeData else node }
          | .deleted =>
            { prevState with
                nodes := prevState.nodes.filter fun node => node.id != nodeData.id
                edges := prevState.edges.filter fun edge =>
                  edge.source != nodeData.id && edge.target != nodeData.id }
        | EntityType.edge, EntityData.edge edgeData =>
          match update_type with
          | .created => { prevState with edges := prevState.edges ++ [edgeData] }
          | .updated =>
            { prevState with
                edges := prevState.edges.map fun (edge : BackendNetworkEdge) =>
                  if edge.id == edgeData.id then edgeData else edge }
          | .deleted =>
            { prevState with
                edges := prevState.edges.filter fun edge => edge.id != edgeData.id }
        | _, _ => prevState
      { newState with lastUpdated := some update.timestamp }
    | _, _, _ => prevState
  | .ping => prevState
  | .pong => prevState

/-- Folding a whole inbound message sequence through the reducer. -/
def applyMessages (msgs : List GraphUpdate) (s : RealtimeGraphState) :
    RealtimeGraphState :=
  msgs.foldl (fun st u => handleGraphUpdate u st) s

/-- The hook's `connect` failure path (`useRealtimeGraph.ts` lines 139-148):
the catch branch records the error message and clears the progress flags. -/
def hookConnectFailure (s : RealtimeGraphState) (msg : String) : RealtimeGraphState :=
  { s with isConnected := false, isConnecting := false, connectionError := some msg }

/-- `WebSocket.readyState` values. -/
inductive ReadyState where
  | CONNECTING | OPEN | CLOSING | CLOSED
deriving DecidableEq

/-- The client→server control messages (`send` payloads in
`EnhancedSettingsModal.tsx` / `useRealtimeGraph.ts`). -/
inductive ClientMessage where
  | pong (timestamp : String)
  | ping
  | request_graph_state
deriving DecidableEq

/-- The `WebSocketManager` reconnect state (`EnhancedSettingsModal.tsx`
lines 340-346): only `reconnectAttempts` evolves; the cap and base delay are
the constants below. -/
structure WebSocketManager where
  reconnectAttempts : Nat

/-- `maxReconnectAttempts` (line 344). -/
def maxReconnectAttempts : Nat := 5

/-- `reconnectDelay` in milliseconds (line 345). -/
def reconnectDelay : Nat := 1000

/-- `attemptReconnect` (lines 387-396): when under the cap, increment the
counter and schedule a retry after `reconnectDelay * reconnectAttempts`
milliseconds (the counter read after the increment); at the cap, do nothing.
Returns the new manager and the scheduled delay, `none` when no retry is
scheduled. -/
def attemptReconnect (m : WebSocketManager) : WebSocketManager × Option Nat :=
  if m.reconnectAttempts < maxReconnectAttempts then
    let bumped : WebSocketManager := { reconnectAttempts := m.reconnectAttempts + 1 }
    (bumped, some (reconnectDelay * bumped.reconnectAttempts))
  else (m, none)

/-- A run of consecutive connection failures: every failure fires `onclose`,
which calls `attemptReconnect`. Returns the final manager and the list of
scheduled retry delays in order. -/
def runFailures : Nat → WebSocketManager → WebSocketManager × List Nat
  | 0, m => (m, [])
  | Nat.succ k, m =>
    let step := attemptReconnect m
    let rest := runFailures k step.1
    (rest.1, step.2.toList ++ rest.2)

/-- `WebSocketManager.send` (lines 406-410): transmit the message iff the
socket exists and its `readyState` is `OPEN`; otherwise the call silently
does nothing. The socket is abstracted to its ready state (`none` = no
socket); the result is the transmitted message, `none` when dropped. -/
def send (ws : Option ReadyState) (message : ClientMessage) : Option ClientMessage :=
  match ws with
  | some ReadyState.OPEN => some message
  | _ => none

/-- `requestGraphState` (lines 412-414). -/
def requestGraphState (ws : Option ReadyState) : Option ClientMessage :=
  send ws ClientMessage.request_graph_state

/-- `ping` (lines 416-418). -/
def ping (ws : Option ReadyState) : Option ClientMessage :=
  send ws ClientMessage.ping

/-- A `graph_update` delta envelope carrying one entity payload. -/
def deltaMsg (ut : UpdateType) (ed : EntityData) (ts : String) : GraphUpdate :=
  { type := MsgType.graph_update
    update_type := some ut
    entity_type := some (match ed with | .node _ => EntityType.node | .edge _ => EntityType.edge)
    entity_data := some ed
    nodes := none
    edges := none
    source := some "api"
    timestamp := ts }

/-- A `created` node delta. -/
def createdNodeMsg (n : BackendNetworkNode) (ts : String) : GraphUpdate :=
  deltaMsg UpdateType.created (EntityData.node n) ts

/-- An `updated` node delta. -/
def updatedNodeMsg (n : BackendNetworkNode) (ts : String) : GraphUpdate :=
  deltaMsg UpdateType.updated (EntityData.node n) ts

/-- A `deleted` node delta. -/
def deletedNodeMsg (n : BackendNetworkNode) (ts : String) : GraphUpdate :=
  deltaMsg UpdateType.deleted (EntityData.node n) ts

/-- A `created` edge delta. -/
def createdEdgeMsg (e : BackendNetworkEdge) (ts : String) : GraphUpdate :=
  deltaMsg UpdateType.created (EntityData.edge e) ts

/-- An `updated` edge delta. -/
def updatedEdgeMsg (e : BackendNetworkEdge) (ts : String) : GraphUpdate :=
  deltaMsg UpdateType.updated (EntityData.edge e) ts

/-- A `deleted` edge delta. -/
def deletedEdgeMsg (e : BackendNetworkEdge) (ts : String) : GraphUpdate :=
  deltaMsg UpdateType.deleted (EntityData.edge e) ts

/-- A full `graph_state` snapshot message. -/
def graphStateMsg (ns : List BackendNetworkNode) (es : List BackendNetworkEdge)
    (ts : String) : GraphUpdate :=
  { type := MsgType.graph_state
    update_type := none
    entity_type := none
    entity_data := none
    nodes := some ns
    edges := some es
    source := none
    timestamp := ts }

/-- Concrete fixture node `n1` (scenario A of the spec). -/
def n1 : BackendNetworkNode :=
  { id := "n1", name := "router 1", type := "router", ip_address := none
    status := "online", layer := "network", position := ⟨0, 0⟩
    metadata := [], last_updated := "t0" }

/-- Concrete fixture node `n2`. -/
def n2 : BackendNetworkNode :=
  { id := "n2", name := "switch 2", type := "switch", ip_address := none
    status := "online", layer := "datalink", position := ⟨1, 0⟩
    metadata := [], last_updated := "t0" }

/-- Concrete fixture edge `e1` from `n1` to `n2`. -/
def e1 : BackendNetworkEdge :=
  { id := "e1", source := "n1", target := "n2", type := "ethernet"
    bandwidth := none, utilization := 10, status := "active"
    metadata := [], last_updated := "t0" }

/-- Some node in `nodes` has id `i`. -/
def hasNodeId (nodes : List BackendNetworkNode) (i : String) : Prop :=
  ∃ n ∈ nodes, n.id = i

/-- Every edge endpoint of the state resolves to a currently present node. -/
def noDanglingEdges (s : RealtimeGraphState) : Prop :=
  ∀ e ∈ s.edges, hasNodeId s.nodes e.source ∧ hasNodeId s.nodes e.target

/-- A snapshot is closed: its edges only reference its own nodes. -/
def closedSnapshot (ns : List BackendNetworkNode) (es : List BackendNetworkEdge) : Prop :=
  ∀ e ∈ es, hasNodeId ns e.source ∧ hasNodeId ns e.target

/-- A message is admissible in state `s`: snapshots are closed, and
edge-create / edge-update deltas reference currently present nodes. -/
def OkMsg (u : GraphUpdate) (s : RealtimeGraphState) : Prop :=
  (u.type = MsgType.graph_state → closedSnapshot (u.nodes.getD []) (u.edges.getD [])) ∧
  (u.type = MsgType.graph_update →
    match u.entity_type, u.entity_data, u.update_type with
    | some EntityType.edge, some (EntityData.edge e), some UpdateType.created =>
      hasNodeId s.nodes e.source ∧ hasNodeId s.nodes e.target
    | some EntityType.edge, some (EntityData.edge e), some UpdateType.updated =>
      hasNodeId s.nodes e.source ∧ hasNodeId s.nodes e.target
    | _, _, _ => True)

/-- Every message of the trace is admissible in the state it is applied to. -/
def OkTrace : RealtimeGraphState → List GraphUpdate → Prop
  | _, [] => True
  | s, u :: rest => OkMsg u s ∧ OkTrace (handleGraphUpdate u s) rest

/- ---------------------------------------------------------------- -/
/- Helper lemmas                                                    -/
/- ---------------------------------------------------------------- -/

theorem map_eq_self_of_mem {α : Type} (l : List α) (f : α → α)
    (h : ∀ x ∈ l, f x = x) : l.map f = l := by
  induction l with
  | nil => rfl
  | cons a t ih =>
    simp only [List.map_cons]
    rw [h a (by simp), ih fun x hx => h x (by simp [hx])]

theorem hasNodeId_append (nodes : List BackendNetworkNode) (n : BackendNetworkNode)
    (i : String) (h : hasNodeId nodes i) : hasNodeId (nodes ++ [n]) i := by
  obtain ⟨m, hm, hid⟩ := h
  exact ⟨m, by simp [hm], hid⟩

theorem hasNodeId_map_upd (nodes : List BackendNetworkNode) (nd : BackendNetworkNode)
    (i : String) (h : hasNodeId nodes i) :
    hasNodeId (nodes.map fun node => if node.id == nd.id then nd else node) i := by
  obtain ⟨m, hm, hid⟩ := h
  by_cases hb : m.id == nd.id
  · refine ⟨nd, List.mem_map.mpr ⟨m, hm, by simp [hb]⟩, ?_⟩
    have : m.id = nd.id := by simpa using hb
    rw [← this, hid]
  · exact ⟨m, List.mem_map.mpr ⟨m, hm, by simp [hb]⟩, hid⟩

/- ---------------------------------------------------------------- -/
/- C1                                                               -/
/- ---------------------------------------------------------------- -/

/-- C1 counterexample: in the local state whose node list is `[n1]`, applying
a `created` delta for the already-present id `n1` is not a no-op — the
reducer appends a duplicate entry, so the resulting node list differs from
`[n1]`. -/
theorem created_delta_not_idempotent_cex :
    (handleGraphUpdate (createdNodeMsg n1 "t1")
        { initialRealtimeGraphState with nodes := [n1] }).nodes ≠ [n1] := by
  have h : (handleGraphUpdate (createdNodeMsg n1 "t1")
      { initialRealtimeGraphState with nodes := [n1] }).nodes = [n1, n1] := rfl
  rw [h]
  intro hEq
  have hlen := congrArg List.length hEq
  simp at hlen

/-- C1 amended: the reducer's `created` branch appends the entity
unconditionally (it never checks whether the id is already present), for
nodes and edges alike; hence applying the same `created` delta twice appends
two copies and never yields the same list as applying it once. -/
theorem created_delta_appends_unconditionally :
    ∀ (s : RealtimeGraphState) (n : BackendNetworkNode) (e : BackendNetworkEdge)
      (ts ts' : String),
      (handleGraphUpdate (createdNodeMsg n ts) s).nodes = s.nodes ++ [n] ∧
      (handleGraphUpdate (createdNodeMsg n ts')
          (handleGraphUpdate (createdNodeMsg n ts) s)).nodes = s.nodes ++ [n, n] ∧
      (handleGraphUpdate (createdEdgeMsg e ts) s).edges = s.edges ++ [e] ∧
      (handleGraphUpdate (createdEdgeMsg e ts')
          (handleGraphUpdate (createdEdgeMsg e ts) s)).edges = s.edges ++ [e, e] ∧
      (handleGraphUpdate (createdNodeMsg n ts')
          (handleGraphUpdate (createdNodeMsg n ts) s)).nodes ≠
        (handleGraphUpdate (createdNodeMsg n ts) s).nodes := by
  intro s n e ts ts'
  refine ⟨rfl, by simp [handleGraphUpdate, createdNodeMsg, deltaMsg], rfl,
    by simp [handleGraphUpdate, createdEdgeMsg, deltaMsg], ?_⟩
  intro hEq
  have hlen := congrArg List.length hEq
  simp [handleGraphUpdate, createdNodeMsg, deltaMsg] at hlen

/- ---------------------------------------------------------------- -/
/- C3                                                               -/
/- ---------------------------------------------------------------- -/

/-- C3: applying a `deleted` node delta for `nd` removes exactly the nodes
whose id equals `nd.id` and cascade-removes exactly the edges whose source
or target equals `nd.id`, with no edge-deletion delta required; in
particular from nodes `[n1, n2]`, edges `[e1(n1→n2)]`, deleting `n1` yields
nodes `[n2]` and no edges. -/
theorem deleted_node_cascades_edges :
    ∀ (s : RealtimeGraphState) (nd : BackendNetworkNode) (ts : String),
      (∀ n : BackendNetworkNode,
        n ∈ (handleGraphUpdate (deletedNodeMsg nd ts) s).nodes ↔
          n ∈ s.nodes ∧ n.id ≠ nd.id) ∧
      (∀ e : BackendNetworkEdge,
        e ∈ (handleGraphUpdate (deletedNodeMsg nd ts) s).edges ↔
          e ∈ s.edges ∧ e.source ≠ nd.id ∧ e.target ≠ nd.id) ∧
      (handleGraphUpdate (deletedNodeMsg n1 "t1")
          { initialRealtimeGraphState with nodes := [n1, n2], edges := [e1] }).nodes
        = [n2] ∧
      (handleGraphUpdate (deletedNodeMsg n1 "t1")
          { initialRealtimeGraphState with nodes := [n1, n2], edges := [e1] }).edges
        = [] := by
  intro s nd ts
  refine ⟨?_, ?_, rfl, rfl⟩
  · intro n
    show n ∈ s.nodes.filter (fun node => node.id != nd.id) ↔ _
    simp [List.mem_filter]
  · intro e
    show e ∈ s.edges.filter (fun edge => edge.source != nd.id && edge.target != nd.id) ↔ _
    simp [List.mem_filter]

/- ---------------------------------------------------------------- -/
/- C4                                                               -/
/- ---------------------------------------------------------------- -/

/-- C4: a `graph_state` snapshot replaces the local node and edge lists
wholesale with exactly what the snapshot carries, independent of the prior
local state — applying the same snapshot to two arbitrary prior states
yields identical node and edge lists. -/
theorem graph_state_resync_dominance :
    ∀ (s s' : RealtimeGraphState) (u : GraphUpdate), u.type = MsgType.graph_state →
      (handleGraphUpdate u s).nodes = u.nodes.getD [] ∧
      (handleGraphUpdate u s).edges = u.edges.getD [] ∧
      (handleGraphUpdate u s).nodes = (handleGraphUpdate u s').nodes ∧
      (handleGraphUpdate u s).edges = (handleGraphUpdate u s').edges := by
  intro s s' u h
  rcases u with ⟨t, ut, et, ed, ns, es, src, ts⟩
  simp only at h
  subst h
  exact ⟨rfl, rfl, rfl, rfl⟩

/-- C4 witness: the snapshot `[n1], []` applied to the empty initial state
and to a state already holding `[n2]` with a dangling edge produces the same
mirror `[n1], []` in both. -/
theorem graph_state_resync_dominance_witness :
    (handleGraphUpdate (graphStateMsg [n1] [] "t3") initialRealtimeGraphState).nodes
        = [n1] ∧
      (handleGraphUpdate (graphStateMsg [n1] [] "t3") initialRealtimeGraphState).edges
        = [] ∧
      (handleGraphUpdate (graphStateMsg [n1] [] "t3") initialRealtimeGraphState).nodes
        = (handleGraphUpdate (graphStateMsg [n1] [] "t3")
            { initialRealtimeGraphState with nodes := [n2], edges := [e1] }).nodes ∧
      (handleGraphUpdate (graphStateMsg [n1] [] "t3") initialRealtimeGraphState).edges
        = (handleGraphUpdate (graphStateMsg [n1] [] "t3")
            { initialRealtimeGraphState with nodes := [n2], edges := [e1] }).edges :=
  graph_state_resync_dominance initialRealtimeGraphState
    { initialRealtimeGraphState with nodes := [n2], edges := [e1] }
    (graphStateMsg [n1] [] "t3") rfl

/- ---------------------------------------------------------------- -/
/- C5                                                               -/
/- ---------------------------------------------------------------- -/

/-- C5: an `updated` delta whose entity id is absent from the corresponding
local collection leaves the whole state unchanged except for `lastUpdated`:
nothing is inserted, nothing is modified, and the reducer is total (no
error path exists). -/
theorem stale_update_absorbed :
    ∀ (s : RealtimeGraphState) (nd : BackendNetworkNode) (ed : BackendNetworkEdge)
      (ts ts' : String),
      ((∀ n ∈ s.nodes, n.id ≠ nd.id) →
        handleGraphUpdate (updatedNodeMsg nd ts) s = { s with lastUpdated := some ts }) ∧
      ((∀ e ∈ s.edges, e.id ≠ ed.id) →
        handleGraphUpdate (updatedEdgeMsg ed ts') s = { s with lastUpdated := some ts' }) := by
  intro s nd ed ts ts'
  constructor
  · intro h
    show ({ s with
        nodes := s.nodes.map fun node => if node.id == nd.id then nd else node,
        lastUpdated := some ts } : RealtimeGraphState) = _
    have hmap : (s.nodes.map fun node => if node.id == nd.id then nd else node) = s.nodes := by
      apply map_eq_self_of_mem
      intro x hx
      have : (x.id == nd.id) = false := beq_eq_false_iff_ne.mpr (h x hx)
      simp [this]
    rw [hmap]
  · intro h
    show ({ s with
        edges := s.edges.map fun edge => if edge.id == ed.id then ed else edge,
        lastUpdated := some ts' } : RealtimeGraphState) = _
    have hmap : (s.edges.map fun edge => if edge.id == ed.id then ed else edge) = s.edges := by
      apply map_eq_self_of_mem
      intro x hx
      have : (x.id == ed.id) = false := beq_eq_false_iff_ne.mpr (h x hx)
      simp [this]
    rw [hmap]

/-- C5 witness: with local nodes `[n1]` and edges `[e1]`, an `updated` delta
for the absent node id `n2` and an `updated` delta for the absent edge id
`e9` both leave the mirrored graph untouched. -/
theorem stale_update_absorbed_witness :
    (∀ n ∈ ({ initialRealtimeGraphState with nodes := [n1], edges := [e1] } :
        RealtimeGraphState).nodes, n.id ≠ n2.id) ∧
      (∀ e ∈ ({ initialRealtimeGraphState with nodes := [n1], edges := [e1] } :
        RealtimeGraphState).edges, e.id ≠ ({ e1 with id := "e9" } : BackendNetworkEdge).id) ∧
      handleGraphUpdate (updatedNodeMsg n2 "t4")
          { initialRealtimeGraphState with nodes := [n1], edges := [e1] }
        = { ({ initialRealtimeGraphState with nodes := [n1], edges := [e1] } :
              RealtimeGraphState) with lastUpdated := some "t4" } ∧
      handleGraphUpdate (updatedEdgeMsg { e1 with id := "e9" } "t5")
          { initialRealtimeGraphState with nodes := [n1], edges := [e1] }
        = { ({ initialRealtimeGraphState with nodes := [n1], edges := [e1] } :
              RealtimeGraphState) with lastUpdated := some "t5" } := by
  have h : ∀ n ∈ ({ initialRealtimeGraphState with nodes := [n1], edges := [e1] } :
      RealtimeGraphState).nodes, n.id ≠ n2.id := by
    intro n hn
    have hn1 : n = n1 := by simpa [initialRealtimeGraphState] using hn
    subst hn1
    simp [n1, n2]
  have h' : ∀ e ∈ ({ initialRealtimeGraphState with nodes := [n1], edges := [e1] } :
      RealtimeGraphState).edges, e.id ≠ ({ e1 with id := "e9" } : BackendNetworkEdge).id := by
    intro e he
    have he1 : e = e1 := by simpa [initialRealtimeGraphState] using he
    subst he1
    simp [e1]
  exact ⟨h, h',
    (stale_update_absorbed { initialRealtimeGraphState with nodes := [n1], edges := [e1] }
      n2 { e1 with id := "e9" } "t4" "t5").1 h,
    (stale_update_absorbed { initialRealtimeGraphState with nodes := [n1], edges := [e1] }
      n2 { e1 with id := "e9" } "t4" "t5").2 h'⟩

/- ---------------------------------------------------------------- -/
/- C8                                                               -/
/- ---------------------------------------------------------------- -/

/-- C8: `adaptBackendEdge` coerces falsy values to `undefined`: a backend
utilization of `0` becomes `undefined`, any utilization strictly between 1
and 100 is preserved unchanged, and an empty-string bandwidth is dropped. -/
theorem adaptBackendEdge_falsy_coercion :
    ∀ (e : BackendNetworkEdge),
      (e.utilization = 0 → (adaptBackendEdge e).utilization = none) ∧
      (1 < e.utilization → e.utilization < 100 →
        (adaptBackendEdge e).utilization = some e.utilization) ∧
      (e.bandwidth = some "" → (adaptBackendEdge e).bandwidth = none) := by
  intro e
  refine ⟨?_, ?_, ?_⟩
  · intro h
    simp [adaptBackendEdge, jsOrUndefinedNum, h]
  · intro h1 h2
    have h0 : (e.utilization == 0) = false := by
      simp only [beq_eq_false_iff_ne]
      omega
    simp [adaptBackendEdge, jsOrUndefinedNum, h0]
  · intro h
    simp [adaptBackendEdge, jsOrUndefinedStr, h]

/-- C8 witness: the fixture edge `e1` with utilization set to 0 and empty
bandwidth loses both fields, while utilization 10 is preserved. -/
theorem adaptBackendEdge_falsy_coercion_witness :
    (adaptBackendEdge { e1 with utilization := 0, bandwidth := some "" }).utilization
        = none ∧
      (adaptBackendEdge { e1 with utilization := 0, bandwidth := some "" }).bandwidth
        = none ∧
      (adaptBackendEdge e1).utilization = some e1.utilization :=
  ⟨(adaptBackendEdge_falsy_coercion { e1 with utilization := 0, bandwidth := some "" }).1
      rfl,
    (adaptBackendEdge_falsy_coercion { e1 with utilization := 0, bandwidth := some "" }).2.2
      rfl,
    (adaptBackendEdge_falsy_coercion e1).2.1 (by norm_num [e1]) (by norm_num [e1])⟩

/- ---------------------------------------------------------------- -/
/- C10                                                              -/
/- ---------------------------------------------------------------- -/

/-- C10: `WebSocketManager.send` transmits iff a socket exists and its ready
state is `OPEN`; in every other configuration the message is silently
dropped (no queueing, no error, no retry), so `pong` replies and
`request_graph_state` control messages issued on a non-open socket are
lost. -/
theorem send_only_when_open :
    ∀ (ws : Option ReadyState) (message : ClientMessage),
      (send ws message = some message ↔ ws = some ReadyState.OPEN) ∧
      (ws ≠ some ReadyState.OPEN → send ws message = none) ∧
      requestGraphState (some ReadyState.CLOSED) = none ∧
      ping (some ReadyState.CONNECTING) = none ∧
      send none (ClientMessage.pong "t") = none ∧
      send (some ReadyState.CLOSING) message = none := by
  intro ws message
  refine ⟨?_, ?_, rfl, rfl, rfl, rfl⟩
  · cases ws with
    | none => simp [send]
    | some rs => cases rs <;> simp [send]
  · intro h
    cases ws with
    | none => rfl
    | some rs => cases rs <;> simp_all [send]

/-- C10 witness: on a closed socket a `pong` reply is dropped, and on an
open socket it is transmitted. -/
theorem send_only_when_open_witness :
    send (some ReadyState.CLOSED) (ClientMessage.pong "t0") = none ∧
      (send (some ReadyState.OPEN) (ClientMessage.pong "t0")
          = some (ClientMessage.pong "t0") ↔ (some ReadyState.OPEN : Option ReadyState)
          = some ReadyState.OPEN) :=
  ⟨(send_only_when_open (some ReadyState.CLOSED) (ClientMessage.pong "t0")).2.1
      (by simp),
    (send_only_when_open (some ReadyState.OPEN) (ClientMessage.pong "t0")).1⟩

/- ---------------------------------------------------------------- -/
/- Frame helpers for the reducer                                    -/
/- ---------------------------------------------------------------- -/

theorem handle_flags_frame (u : GraphUpdate) (s : RealtimeGraphState)
    (h : u.type = MsgType.graph_update) :
    (handleGraphUpdate u s).isConnected = s.isConnected ∧
      (handleGraphUpdate u s).isConnecting = s.isConnecting ∧
      (handleGraphUpdate u s).connectionError = s.connectionError := by
  rcases u with ⟨t, ut, et, ed, ns, es, src, ts⟩
  simp only at h
  subst h
  cases ut with
  | none => exact ⟨rfl, rfl, rfl⟩
  | some a =>
    cases et with
    | none => exact ⟨rfl, rfl, rfl⟩
    | some b =>
      cases ed with
      | none => exact ⟨rfl, rfl, rfl⟩
      | some c => cases b <;> cases c <;> cases a <;> exact ⟨rfl, rfl, rfl⟩

theorem handle_connError_frame (u : GraphUpdate) (s : RealtimeGraphState)
    (h : u.type ≠ MsgType.connection_established) :
    (handleGraphUpdate u s).connectionError = s.connectionError := by
  rcases u with ⟨t, ut, et, ed, ns, es, src, ts⟩
  simp only at h
  cases t with
  | connection_established => exact absurd rfl h
  | graph_state => rfl
  | ping => rfl
  | pong => rfl
  | graph_update =>
    cases ut with
    | none => rfl
    | some a =>
      cases et with
      | none => rfl
      | some b =>
        cases ed with
        | none => rfl
        | some c => cases b <;> cases c <;> cases a <;> rfl

/- ---------------------------------------------------------------- -/
/- C9                                                               -/
/- ---------------------------------------------------------------- -/

/-- C9: every well-formed `graph_update` (all three of `update_type`,
`entity_type`, `entity_data` present) stamps `lastUpdated` with the
envelope's timestamp, every `graph_update` leaves `isConnected`,
`isConnecting` and `connectionError` untouched, and `lastUpdated` can
advance while the mirrored node/edge lists stay identical, as witnessed by
an `updated` delta for an absent node id. -/
theorem graph_update_lastUpdated_frame :
    ∀ (s : RealtimeGraphState) (u : GraphUpdate), u.type = MsgType.graph_update →
      ((u.update_type.isSome ∧ u.entity_type.isSome ∧ u.entity_data.isSome) →
        (handleGraphUpdate u s).lastUpdated = some u.timestamp) ∧
      (handleGraphUpdate u s).isConnected = s.isConnected ∧
      (handleGraphUpdate u s).isConnecting = s.isConnecting ∧
      (handleGraphUpdate u s).connectionError = s.connectionError ∧
      ((handleGraphUpdate (updatedNodeMsg n2 "t9")
            { initialRealtimeGraphState with nodes := [n1] }).nodes = [n1] ∧
        (handleGraphUpdate (updatedNodeMsg n2 "t9")
            { initialRealtimeGraphState with nodes := [n1] }).edges = [] ∧
        (handleGraphUpdate (updatedNodeMsg n2 "t9")
            { initialRealtimeGraphState with nodes := [n1] }).lastUpdated = some "t9" ∧
        ({ initialRealtimeGraphState with nodes := [n1] } :
            RealtimeGraphState).lastUpdated ≠ some "t9") := by
  intro s u h
  refine ⟨?_, (handle_flags_frame u s h).1, (handle_flags_frame u s h).2.1,
    (handle_flags_frame u s h).2.2, ?_, rfl, ?_, by simp [initialRealtimeGraphState]⟩
  · rcases u with ⟨t, ut, et, ed, ns, es, src, ts⟩
    simp only at h
    subst h
    intro ⟨h1, h2, h3⟩
    rcases ut with _ | a
    · simp at h1
    rcases et with _ | b
    · simp at h2
    rcases ed with _ | c
    · simp at h3
    cases b <;> cases c <;> cases a <;> rfl
  · show (List.map _ [n1]) = [n1]
    have : (n1.id == n2.id) = false := by simp [n1, n2]
    simp [this]
  · rfl


/- ---------------------------------------------------------------- -/
/- C7                                                               -/
/- ---------------------------------------------------------------- -/

theorem runFailures_spec :
    ∀ (k a : Nat), a ≤ maxReconnectAttempts →
      runFailures k { reconnectAttempts := a } =
        ({ reconnectAttempts := min (a + k) maxReconnectAttempts },
          (List.range (min k (maxReconnectAttempts - a))).map
            fun i => reconnectDelay * (a + i + 1)) := by
  intro k
  induction k with
  | zero =>
    intro a ha
    have h2 : min 0 (maxReconnectAttempts - a) = 0 := min_eq_left (Nat.zero_le _)
    simp only [runFailures, Nat.add_zero, min_eq_left ha, h2, List.range_zero,
      List.map_nil]
  | succ k ih =>
    intro a ha
    by_cases h : a < maxReconnectAttempts
    · have step : attemptReconnect { reconnectAttempts := a } =
          ({ reconnectAttempts := a + 1 }, some (reconnectDelay * (a + 1))) := by
        simp [attemptReconnect, h]
      simp only [runFailures, step]
      rw [ih (a + 1) h]
      have hm : a + 1 + k = a + (k + 1) := by omega
      have hmin : min (k + 1) (maxReconnectAttempts - a)
          = min k (maxReconnectAttempts - (a + 1)) + 1 := by omega
      rw [hm, hmin, List.range_succ_eq_map]
      have htail : List.map ((fun i => reconnectDelay * (a + i + 1)) ∘ Nat.succ)
            (List.range (min k (maxReconnectAttempts - (a + 1)))) =
          List.map (fun i => reconnectDelay * (a + 1 + i + 1))
            (List.range (min k (maxReconnectAttempts - (a + 1)))) := by
        refine List.map_congr_left fun i _ => ?_
        simp only [Function.comp, Nat.succ_eq_add_one]
        ring
      simp only [List.map_cons, List.map_map, Option.toList_some, List.cons_append,
        List.nil_append, Nat.add_zero, htail]
    · have ha5 : a = maxReconnectAttempts := by omega
      subst ha5
      have step : attemptReconnect { reconnectAttempts := maxReconnectAttempts } =
          ({ reconnectAttempts := maxReconnectAttempts }, none) := by
        simp [attemptReconnect]
      simp only [runFailures, step]
      rw [ih maxReconnectAttempts (le_refl _)]
      have h1 : min (maxReconnectAttempts + k) maxReconnectAttempts
          = maxReconnectAttempts := by omega
      have h2 : min (maxReconnectAttempts + (k + 1)) maxReconnectAttempts
          = maxReconnectAttempts := by omega
      have h3 : maxReconnectAttempts - maxReconnectAttempts = 0 := by omega
      have h4 : min (k + 1) 0 = 0 := by omega
      have h5 : min k 0 = 0 := by omega
      rw [h1, h3, h4, h5, List.range_zero, List.map_nil]
      simp only [h2, Option.toList_none, List.nil_append]

/-- C7: under `k` consecutive immediate connection failures starting from a
fresh manager, exactly `min k maxReconnectAttempts` reconnect attempts are
scheduled (so never more than the cap of 5); the i-th attempt's delay is
`reconnectDelay * i`, strictly growing with the attempt count; once the cap
is reached a further failure schedules nothing (terminal, no auto-retry);
the hook's failure path records a connection error, and no message other
than `connection_established` ever clears `connectionError`, so the error
persists until an external reconnect. -/
theorem bounded_reconnection :
    ∀ k : Nat,
      ((runFailures k { reconnectAttempts := 0 }).2.length
          = min k maxReconnectAttempts) ∧
      ((runFailures k { reconnectAttempts := 0 }).2
          = (List.range (min k maxReconnectAttempts)).map
              fun i => reconnectDelay * (i + 1)) ∧
      List.Chain' (· < ·) (runFailures k { reconnectAttempts := 0 }).2 ∧
      (maxReconnectAttempts ≤ k →
        attemptReconnect (runFailures k { reconnectAttempts := 0 }).1
          = ((runFailures k { reconnectAttempts := 0 }).1, none)) ∧
      (∀ (s : RealtimeGraphState) (msg : String),
        (hookConnectFailure s msg).connectionError = some msg ∧
          (hookConnectFailure s msg).isConnected = false) ∧
      (∀ (s : RealtimeGraphState) (u : GraphUpdate),
        u.type ≠ MsgType.connection_established →
          (handleGraphUpdate u s).connectionError = s.connectionError) := by
  intro k
  have hrun := runFailures_spec k 0 (Nat.zero_le _)
  have hsub : maxReconnectAttempts - 0 = maxReconnectAttempts := rfl
  rw [hsub, Nat.zero_add] at hrun
  refine ⟨?_, ?_, ?_, ?_, fun s msg => ⟨rfl, rfl⟩,
    fun s u h => handle_connError_frame u s h⟩
  · rw [hrun]
    simp
  · rw [hrun]
    simp only [Nat.zero_add]
  · rw [hrun]
    dsimp only
    rw [List.chain'_iff_pairwise, List.pairwise_map]
    refine List.Pairwise.imp ?_ (List.pairwise_lt_range _)
    intro a b hab
    simp only [reconnectDelay]
    omega
  · intro hk
    rw [hrun]
    have hmax : min k maxReconnectAttempts = maxReconnectAttempts := by omega
    rw [hmax]
    simp [attemptReconnect]

/-- C7 witness: seven consecutive failures schedule exactly five reconnect
attempts, after which a further failure schedules nothing, and a
`graph_state` message does not clear the connection error. -/
theorem bounded_reconnection_witness :
    (runFailures 7 { reconnectAttempts := 0 }).2.length = min 7 maxReconnectAttempts ∧
      maxReconnectAttempts ≤ 7 ∧
      attemptReconnect (runFailures 7 { reconnectAttempts := 0 }).1
        = ((runFailures 7 { reconnectAttempts := 0 }).1, none) ∧
      (handleGraphUpdate (graphStateMsg [] [] "tw")
          initialRealtimeGraphState).connectionError
        = initialRealtimeGraphState.connectionError := by
  obtain ⟨h1, h2, h3, h4, h5, h6⟩ := bounded_reconnection 7
  exact ⟨h1, by decide, h4 (by decide),
    h6 initialRealtimeGraphState (graphStateMsg [] [] "tw") (by decide)⟩

/- ---------------------------------------------------------------- -/
/- C2                                                               -/
/- ---------------------------------------------------------------- -/

/-- C2 counterexample: from the empty initial state, the single-delta
sequence `[created edge e1(n1→n2)]` leaves the local mirror with the edge
`e1` present and no nodes at all, so the no-dangling-edges property fails
for this sequence of applied deltas. -/
theorem dangling_edge_cex :
    ¬ noDanglingEdges (applyMessages [createdEdgeMsg e1 "t1"] initialRealtimeGraphState) := by
  intro h
  have hmem : e1 ∈ (applyMessages [createdEdgeMsg e1 "t1"] initialRealtimeGraphState).edges := by
    show e1 ∈ ([] : List BackendNetworkEdge) ++ [e1]
    simp
  obtain ⟨⟨m, hm, _⟩, _⟩ := h e1 hmem
  have hnodes : (applyMessages [createdEdgeMsg e1 "t1"] initialRealtimeGraphState).nodes
      = [] := rfl
  rw [hnodes] at hm
  exact absurd hm (List.not_mem_nil m)

theorem handle_preserves_noDangling :
    ∀ (u : GraphUpdate) (s : RealtimeGraphState),
      noDanglingEdges s → OkMsg u s → noDanglingEdges (handleGraphUpdate u s) := by
  intro u s hs hok
  obtain ⟨hsnap, hdelta⟩ := hok
  rcases u with ⟨t, ut, et, ed, ns, es, src, ts⟩
  cases t with
  | connection_established => exact hs
  | ping => exact hs
  | pong => exact hs
  | graph_state => exact hsnap rfl
  | graph_update =>
    cases ut with
    | none => exact hs
    | some a =>
      cases et with
      | none => exact hs
      | some b =>
        cases ed with
        | none => exact hs
        | some c =>
          cases b with
          | node =>
            cases c with
            | edge ed0 => exact hs
            | node nd =>
              cases a with
              | created =>
                intro e he
                obtain ⟨h1, h2⟩ := hs e he
                exact ⟨hasNodeId_append _ nd _ h1, hasNodeId_append _ nd _ h2⟩
              | updated =>
                intro e he
                obtain ⟨h1, h2⟩ := hs e he
                exact ⟨hasNodeId_map_upd _ nd _ h1, hasNodeId_map_upd _ nd _ h2⟩
              | deleted =>
                intro e he
                obtain ⟨hmem, hcond⟩ := List.mem_filter.mp he
                have hconds : e.source ≠ nd.id ∧ e.target ≠ nd.id := by
                  simpa [Bool.and_eq_true, bne_iff_ne] using hcond
                obtain ⟨⟨m1, hm1, hid1⟩, ⟨m2, hm2, hid2⟩⟩ := hs e hmem
                refine ⟨⟨m1, ?_, hid1⟩, ⟨m2, ?_, hid2⟩⟩
                · refine List.mem_filter.mpr ⟨hm1, ?_⟩
                  simpa [bne_iff_ne, hid1] using hconds.1
                · refine List.mem_filter.mpr ⟨hm2, ?_⟩
                  simpa [bne_iff_ne, hid2] using hconds.2
          | edge =>
            cases c with
            | node nd => exact hs
            | edge ed0 =>
              cases a with
              | created =>
                obtain ⟨hsrc, htgt⟩ := hdelta rfl
                intro e he
                rcases List.mem_append.mp he with hmem | hmem
                · exact hs e hmem
                · have heq : e = ed0 := by simpa using hmem
                  subst heq
                  exact ⟨hsrc, htgt⟩
              | updated =>
                obtain ⟨hsrc, htgt⟩ := hdelta rfl
                intro e he
                obtain ⟨e0, he0, heq⟩ := List.mem_map.mp he
                split at heq
                · subst heq
                  exact ⟨hsrc, htgt⟩
                · subst heq
                  exact hs e0 he0
              | deleted =>
                intro e he
                exact hs e (List.mem_filter.mp he).1

theorem okTrace_preserves_noDangling :
    ∀ (msgs : List GraphUpdate) (s : RealtimeGraphState),
      noDanglingEdges s → OkTrace s msgs →
      noDanglingEdges (applyMessages msgs s) := by
  intro msgs
  induction msgs with
  | nil => intro s hs _; exact hs
  | cons u rest ih =>
    intro s hs hok
    exact ih (handleGraphUpdate u s) (handle_preserves_noDangling u s hs hok.1) hok.2

/-- C2 amended: the reducer enforces no-dangling-edges only against node
deletion (cascade removal); `created`/`updated` edge deltas and snapshots
are applied verbatim, so the invariant holds for every sequence of
admissible messages — snapshots that are closed and edge create/update
deltas whose endpoints are currently present — applied from the empty
initial state, and can be broken by an edge delta referencing an absent
node (see the counterexample). -/
theorem noDangling_of_admissible_trace :
    ∀ msgs : List GraphUpdate, OkTrace initialRealtimeGraphState msgs →
      noDanglingEdges (applyMessages msgs initialRealtimeGraphState) := by
  intro msgs hok
  refine okTrace_preserves_noDangling msgs initialRealtimeGraphState ?_ hok
  intro e he
  exact absurd he (List.not_mem_nil e)

/-- C2 witness: the scenario-A trace — snapshot `[n1, n2], [e1]` followed by
`deleted(node, n1)` — is admissible, and the resulting mirror has no
dangling edge. -/
theorem noDangling_of_admissible_trace_witness :
    OkTrace initialRealtimeGraphState
        [graphStateMsg [n1, n2] [e1] "t1", deletedNodeMsg n1 "t2"] ∧
      noDanglingEdges (applyMessages
        [graphStateMsg [n1, n2] [e1] "t1", deletedNodeMsg n1 "t2"]
        initialRealtimeGraphState) := by
  have hok : OkTrace initialRealtimeGraphState
      [graphStateMsg [n1, n2] [e1] "t1", deletedNodeMsg n1 "t2"] := by
    refine ⟨⟨?_, ?_⟩, ⟨?_, ?_⟩, trivial⟩
    · intro _ e he
      have heq : e = e1 := by simpa [graphStateMsg] using he
      subst heq
      exact ⟨⟨n1, by simp [graphStateMsg], rfl⟩, ⟨n2, by simp [graphStateMsg], rfl⟩⟩
    · intro h
      exact absurd h (by decide)
    · intro h
      exact absurd h (by decide)
    · intro _
      exact trivial
  exact ⟨hok, noDangling_of_admissible_trace _ hok⟩


/- ---------------------------------------------------------------- -/
/- C6                                                               -/
/- ---------------------------------------------------------------- -/

theorem deepEmptyFields_iff :
    ∀ l : List (String × JValue),
      deepEmptyFields l = true ↔ ∀ kv ∈ l, deepEmpty kv.2 = true := by
  intro l
  induction l with
  | nil => simp [deepEmptyFields]
  | cons hd tl ih =>
    cases hd with
    | mk k v => simp [deepEmptyFields, Bool.and_eq_true, ih]

theorem deepEmpty_of_isEmpty : ∀ v : JValue, isEmpty v = true → deepEmpty v = true := by
  intro v hv
  cases v with
  | null => simp [deepEmpty]
  | str s => simpa [isEmpty, deepEmpty] using hv
  | num n => simp [isEmpty] at hv
  | boolean b => simp [isEmpty] at hv
  | arr elems => simpa [isEmpty, deepEmpty] using hv
  | obj fields =>
    have hfs : fields = [] := by simpa [isEmpty, List.isEmpty_iff] using hv
    subst hfs
    simp [deepEmpty, deepEmptyFields]

theorem filterEmptyFields_eq_filter_map :
    ∀ l : List (String × JValue),
      filterEmptyFields l
        = (l.filter fun kv => !deepEmpty kv.2).map fun kv => (kv.1, deepFilter kv.2) := by
  intro l
  induction l using filterEmptyFields.induct with
  | case1 =>
    rw [filterEmptyFields.eq_def]
    rfl
  | case2 k v rest hv ih =>
    have hd : deepEmpty v = true := deepEmpty_of_isEmpty v hv
    have hL : filterEmptyFields ((k, v) :: rest) = filterEmptyFields rest := by
      rw [filterEmptyFields.eq_def]
      simp [hv]
    rw [hL, ih]
    simp [List.filter_cons, hd]
  | case3 k rest fields fn hfn hno ihfields ihrest =>
    have hnil : filterEmptyFields fields = [] := List.isEmpty_iff.mp hfn
    have hdeep : deepEmptyFields fields = true := by
      rw [ihfields] at hnil
      have hfil : (fields.filter fun kv => !deepEmpty kv.2) = [] :=
        List.map_eq_nil_iff.mp hnil
      rw [deepEmptyFields_iff]
      intro kv hkv
      have hk := List.filter_eq_nil_iff.mp hfil kv hkv
      simpa using hk
    have hL : filterEmptyFields ((k, JValue.obj fields) :: rest)
        = filterEmptyFields rest := by
      rw [filterEmptyFields.eq_def]
      simp [hno, hnil]
    rw [hL, ihrest]
    have hfalse : (!deepEmpty (JValue.obj fields)) = false := by
      simp [deepEmpty, hdeep]
    simp [List.filter_cons, hfalse]
  | case4 k rest fields fn hfn hno ihfields ihrest =>
    have hfn' : ¬(filterEmptyFields fields).isEmpty = true := hfn
    have hnnil : filterEmptyFields fields ≠ [] := by
      intro hc
      rw [hc] at hfn'
      exact hfn' rfl
    have hdeep : deepEmptyFields fields = false := by
      cases hdf : deepEmptyFields fields with
      | false => rfl
      | true =>
        exfalso
        apply hnnil
        rw [ihfields]
        have hfil : (fields.filter fun kv => !deepEmpty kv.2) = [] := by
          rw [List.filter_eq_nil_iff]
          intro kv hkv
          have hkd := (deepEmptyFields_iff fields).mp hdf kv hkv
          simp [hkd]
        rw [hfil]
        rfl
    have hL : filterEmptyFields ((k, JValue.obj fields) :: rest)
        = (k, JValue.obj (filterEmptyFields fields)) :: filterEmptyFields rest := by
      rw [filterEmptyFields.eq_def]
      simp [hno, hfn']
    rw [hL, ihrest]
    have htrue : (!deepEmpty (JValue.obj fields)) = true := by
      simp [deepEmpty, hdeep]
    have hdfeq : deepFilter (JValue.obj fields) = JValue.obj (filterEmptyFields fields) := rfl
    simp [List.filter_cons, htrue, hdfeq]
  | case5 k v rest hne hnotobj ih =>
    have hiv : isEmpty v = false := by
      cases hx : isEmpty v with
      | false => rfl
      | true => exact absurd hx hne
    have hdeepeq : deepEmpty v = false := by
      cases v with
      | null => simp [isEmpty] at hiv
      | str s => simpa [isEmpty, deepEmpty] using hiv
      | num n => simp [deepEmpty]
      | boolean b => simp [deepEmpty]
      | arr elems => simpa [isEmpty, deepEmpty] using hiv
      | obj fs => exact absurd rfl (hnotobj fs)
    have hdfilter : deepFilter v = v := by
      cases v with
      | obj fs => exact absurd rfl (hnotobj fs)
      | null => rfl
      | str s => rfl
      | num n => rfl
      | boolean b => rfl
      | arr elems => rfl
    have hL : filterEmptyFields ((k, v) :: rest) = (k, v) :: filterEmptyFields rest := by
      cases v with
      | obj fs => exact absurd rfl (hnotobj fs)
      | null => simp [isEmpty] at hiv
      | str s =>
        rw [filterEmptyFields.eq_def]
        simp [hiv]
      | num n =>
        rw [filterEmptyFields.eq_def]
        simp [hiv]
      | boolean b =>
        rw [filterEmptyFields.eq_def]
        simp [hiv]
      | arr elems =>
        rw [filterEmptyFields.eq_def]
        simp [hiv]
    rw [hL, ih]
    simp [List.filter_cons, hdeepeq, hdfilter]

/-- C6: `filterEmptyFields` retains exactly the keys whose values are
non-empty — where emptiness is the recursive closure of the policy
null / blank-or-whitespace string / empty array / object with zero own keys
(an object all of whose fields are recursively empty strips down to zero
keys and is itself dropped) — and rewrites each retained nested object by
the same recursive filtering, at every nesting depth. -/
theorem filterEmptyFields_retains_exactly_nonempty_keys :
    ∀ l : List (String × JValue),
      (filterEmptyFields l).map Prod.fst
          = (l.filter fun kv => !deepEmpty kv.2).map Prod.fst ∧
        filterEmptyFields l
          = (l.filter fun kv => !deepEmpty kv.2).map fun kv => (kv.1, deepFilter kv.2) := by
  intro l
  have h := filterEmptyFields_eq_filter_map l
  refine ⟨?_, h⟩
  rw [h, List.map_map]
  rfl

/-- C9 witness: for the concrete `updated` delta carrying `n2` with
timestamp `t9` applied to the initial state, `lastUpdated` becomes `t9` and
the connection flags are untouched. -/
theorem graph_update_lastUpdated_frame_witness :
    (handleGraphUpdate (updatedNodeMsg n2 "t9") initialRealtimeGraphState).lastUpdated
        = some (updatedNodeMsg n2 "t9").timestamp ∧
      (handleGraphUpdate (updatedNodeMsg n2 "t9") initialRealtimeGraphState).isConnected
        = initialRealtimeGraphState.isConnected ∧
      (handleGraphUpdate (updatedNodeMsg n2 "t9") initialRealtimeGraphState).isConnecting
        = initialRealtimeGraphState.isConnecting ∧
      (handleGraphUpdate (updatedNodeMsg n2 "t9") initialRealtimeGraphState).connectionError
        = initialRealtimeGraphState.connectionError := by
  obtain ⟨h1, h2, h3, h4, _⟩ :=
    graph_update_lastUpdated_frame initialRealtimeGraphState (updatedNodeMsg n2 "t9") rfl
  exact ⟨h1 ⟨rfl, rfl, rfl⟩, h2, h3, h4⟩
